import Mathlib

/-!
Verification development for the Tabular Preview Engine of this repository
and its dummy-data generator.

The engine itself (path resolver, format classifier, schema extractor,
row-window reader, value encoder, preview router) is specified in spec.md;
its implementation is not among the checked-in sources (only its tests and
callers are), so those components are modelled here from the spec, while
the dummy-data generator is embedded from src/dummy_data/various_types.py.
-/

namespace Preview

/-- Time units a source file may declare for a timestamp column. -/
inductive TimeUnit where
  | s | ms | us | ns
deriving DecidableEq, Repr

/-- Nanoseconds per unit, used to normalize timestamps at encode time. -/
def nanosPer : TimeUnit → Int
  | .s => 1000000000
  | .ms => 1000000
  | .us => 1000
  | .ns => 1

/-- Modelled from the spec: the JSON-safe wire value, a closed variant over
Null, Int64, Float64, Bool, Str, Bytes, TimestampNanos, List, Map, Struct.
Finite float payloads are modelled abstractly by an integer code since no
floating-point arithmetic is performed on them. -/
inductive Value where
  | null
  | int64 (i : Int)
  | float64 (q : Int)
  | bool (b : Bool)
  | str (s : String)
  | bytes (bs : List Nat)
  | timestampNanos (n : Int)
  | list (vs : List Value)
  | map (kvs : List (String × Value))
  | struct (fs : List (String × Value))

/-- Modelled from the spec: the closed recursive TypeTag variant of the data
model. A struct field is a (name, tag, nullable) triple, mirroring the
ColumnSpec shape of a Schema. -/
inductive TypeTag where
  | int (width : Nat) (signed : Bool)
  | float (width : Nat)
  | bool
  | utf8
  | timestamp (unit : TimeUnit)
  | binary
  | list (elem : TypeTag)
  | map (key val : TypeTag)
  | struct (fields : List (String × TypeTag × Bool))
  | null

/-- A column specification: name, logical type, nullable flag. -/
abbrev ColumnSpec := String × TypeTag × Bool

/-- A schema is an ordered sequence of column specifications. -/
abbrev Schema := List ColumnSpec

/-- A row maps column names to wire values, in schema order. -/
abbrev Row := List (String × Value)

/-- Modelled from the spec: the RowWindow returned by the row-window reader. -/
structure RowWindow where
  offset : Nat
  limit : Nat
  totalRows : Nat
  rows : List Row

/-- Errors of the engine's error taxonomy that the reader may surface. -/
inductive EngineError where
  | notFound | accessDenied | unsupported | corruptFile
deriving DecidableEq, Repr

/-- Modelled from the spec: readWindow over an already decoded file, viewed
as its full ordered row sequence; it serves the slice of limit rows
starting at offset, with totalRows populated from the file. -/
def readWindow (file : List Row) (offset limit : Nat) : RowWindow :=
  { offset := offset
    limit := limit
    totalRows := file.length
    rows := (file.drop offset).take limit }

/-- Modelled from the spec: getRows never raises for offset beyond the end;
an out-of-range window is an ordinary empty response, not an error. -/
def getRows (file : List Row) (offset limit : Nat) :
    Except EngineError RowWindow :=
  .ok (readWindow file offset limit)

/-- Pagination loop: concatenate windows at offsets off, off+limit, … until
an empty window is returned. -/
def paginate (file : List Row) (limit off : Nat) : List Row :=
  if hl : limit = 0 then []
  else
    match hw : (readWindow file off limit).rows with
    | [] => []
    | r :: rs => (r :: rs) ++ paginate file limit (off + limit)
termination_by file.length - off
decreasing_by
  have hdrop : file.drop off ≠ [] := by
    intro hd
    have hnil : (readWindow file off limit).rows = [] := by
      simp [readWindow, hd]
    rw [hw] at hnil
    exact List.cons_ne_nil r rs hnil
  have hofflt : off < file.length := by
    by_contra hge
    push_neg at hge
    exact hdrop (List.drop_eq_nil_of_le hge)
  omega

/-- Modelled from the spec: the native column value as decoded from a file,
before wire encoding. A native float is either NaN, an infinity, or a
finite payload (modelled abstractly by an integer code, since no
floating-point arithmetic is performed on it). -/
inductive NativeFloat where
  | nan | pinf | ninf | finite (q : Int)
deriving DecidableEq, Repr

/-- Modelled from the spec: native values covering the heterogeneous source
types the encoder must reconcile: null, integers, floats with sentinels,
booleans, strings, binary blobs, timestamps in a declared unit, and nested
lists, maps and structs. -/
inductive NativeValue where
  | null
  | int (i : Int)
  | float (f : NativeFloat)
  | bool (b : Bool)
  | str (s : String)
  | bytes (bs : List Nat)
  | timestamp (v : Int) (u : TimeUnit)
  | list (vs : List NativeValue)
  | map (kvs : List (String × NativeValue))
  | struct (fs : List (String × NativeValue))

/-- Character of the standard base64 alphabet at a sextet index. -/
def b64Char (n : Nat) : Char :=
  if n < 26 then Char.ofNat (65 + n)
  else if n < 52 then Char.ofNat (97 + (n - 26))
  else if n < 62 then Char.ofNat (48 + (n - 52))
  else if n = 62 then '+' else '/'

/-- Sextet index of a base64 character (64 for a non-alphabet character). -/
def b64Value (c : Char) : Nat :=
  if 65 ≤ c.toNat ∧ c.toNat ≤ 90 then c.toNat - 65
  else if 97 ≤ c.toNat ∧ c.toNat ≤ 122 then c.toNat - 97 + 26
  else if 48 ≤ c.toNat ∧ c.toNat ≤ 57 then c.toNat - 48 + 52
  else if c = '+' then 62
  else if c = '/' then 63
  else 64

/-- Base64 encoding of a byte sequence, with '=' padding. -/
def base64Encode : List Nat → List Char
  | [] => []
  | [a] => [b64Char (a / 4), b64Char (a % 4 * 16), '=', '=']
  | [a, b] => [b64Char (a / 4), b64Char (a % 4 * 16 + b / 16),
               b64Char (b % 16 * 4), '=']
  | a :: b :: c :: rest =>
      b64Char (a / 4) :: b64Char (a % 4 * 16 + b / 16) ::
      b64Char (b % 16 * 4 + c / 64) :: b64Char (c % 64) ::
      base64Encode rest

/-- Base64 decoding back to the byte sequence. -/
def base64Decode : List Char → List Nat
  | [c1, c2, '=', '='] => [b64Value c1 * 4 + b64Value c2 / 16]
  | [c1, c2, c3, '='] =>
      [b64Value c1 * 4 + b64Value c2 / 16,
       b64Value c2 % 16 * 16 + b64Value c3 / 4]
  | c1 :: c2 :: c3 :: c4 :: rest =>
      (b64Value c1 * 4 + b64Value c2 / 16) ::
      (b64Value c2 % 16 * 16 + b64Value c3 / 4) ::
      (b64Value c3 % 4 * 64 + b64Value c4) ::
      base64Decode rest
  | _ => []

/-- Membership of a character in the base64 alphabet. -/
def isB64Char (c : Char) : Bool := b64Value c < 64

/-- Syntactic validity of a base64 character sequence: alphabet characters
in groups of four, with the two padded final-group shapes allowed. -/
def isBase64 : List Char → Bool
  | [] => true
  | [c1, c2, '=', '='] => isB64Char c1 && isB64Char c2
  | [c1, c2, c3, '='] => isB64Char c1 && isB64Char c2 && isB64Char c3
  | c1 :: c2 :: c3 :: c4 :: rest =>
      isB64Char c1 && isB64Char c2 && isB64Char c3 && isB64Char c4 &&
        isBase64 rest
  | _ => false

/-- Element tag of a list TypeTag, the tag itself otherwise. -/
def elemTag : TypeTag → TypeTag
  | .list t => t
  | t => t

/-- Value tag of a map TypeTag, the tag itself otherwise. -/
def mapValTag : TypeTag → TypeTag
  | .map _ v => v
  | t => t

/-- Field tag of a struct TypeTag under a field name, Null otherwise. -/
def structFieldTag (t : TypeTag) (nm : String) : TypeTag :=
  match t with
  | .struct fields =>
      match fields.find? (fun f => f.1 = nm) with
      | some f => f.2.1
      | none => .null
  | _ => .null

/-- Modelled from the spec: the value encoder, a total function from native
value and declared type tag to a JSON-safe wire value. Null maps to Null;
NaN is encoded as the literal string NaN (the spec leaves the choice
between that and a flagged Null open, one encoding applied consistently);
the infinities map to the literal strings Infinity and -Infinity; blobs map
to base64 strings; timestamps are normalized to nanoseconds since the
epoch; nested values are encoded recursively preserving structure. -/
def encode : NativeValue → TypeTag → Value
  | .null, _ => .null
  | .int i, _ => .int64 i
  | .float .nan, _ => .str "NaN"
  | .float .pinf, _ => .str "Infinity"
  | .float .ninf, _ => .str "-Infinity"
  | .float (.finite q), _ => .float64 q
  | .bool b, _ => .bool b
  | .str s, _ => .str s
  | .bytes bs, _ => .str (String.mk (base64Encode bs))
  | .timestamp v u, _ => .timestampNanos (v * nanosPer u)
  | .list vs, t => .list (vs.attach.map (fun x => encode x.1 (elemTag t)))
  | .map kvs, t =>
      .map (kvs.attach.map (fun x => (x.1.1, encode x.1.2 (mapValTag t))))
  | .struct fs, t =>
      .struct (fs.attach.map
        (fun x => (x.1.1, encode x.1.2 (structFieldTag t x.1.1))))
termination_by v _ => sizeOf v
decreasing_by
  · have h := List.sizeOf_lt_of_mem x.2
    simp only [NativeValue.list.sizeOf_spec]
    omega
  · obtain ⟨⟨a, b⟩, hm⟩ := x
    have h := List.sizeOf_lt_of_mem hm
    simp only [NativeValue.map.sizeOf_spec, Prod.mk.sizeOf_spec] at *
    omega
  · obtain ⟨⟨a, b⟩, hm⟩ := x
    have h := List.sizeOf_lt_of_mem hm
    simp only [NativeValue.struct.sizeOf_spec, Prod.mk.sizeOf_spec] at *
    omega

/-- Encode one native row against a schema, pairing each cell with its
column name and encoding it at the column's declared type. -/
def encodeRow (cells : List NativeValue) (schema : Schema) : Row :=
  List.zipWith (fun v (c : ColumnSpec) => (c.1, encode v c.2.1)) cells schema

/-- Decode a blob cell back from its wire representation: the encoded value
must be a base64 string, which is decoded to bytes. -/
def decodeBlob : Value → Option (List Nat)
  | .str s => some (base64Decode s.data)
  | _ => none

/-- Variant consistency exactly as the data-model invariant states it: a
wire value's variant is the variant of the column's declared TypeTag, or
Null. -/
def strictConsistent : Value → TypeTag → Bool
  | .null, _ => true
  | .int64 _, .int _ _ => true
  | .float64 _, .float _ => true
  | .bool _, .bool => true
  | .str _, .utf8 => true
  | .bytes _, .binary => true
  | .timestampNanos _, .timestamp _ => true
  | .list _, .list _ => true
  | .map _, .map _ _ => true
  | .struct _, .struct _ => true
  | _, _ => false

/-- Wire consistency as the encoder actually produces it: the declared
variant or Null, and additionally the sentinel strings NaN, Infinity and
-Infinity for float columns and a base64 string for binary columns. -/
def wireConsistent : Value → TypeTag → Bool
  | .null, _ => true
  | .int64 _, .int _ _ => true
  | .float64 _, .float _ => true
  | .str s, .float _ => s = "NaN" || s = "Infinity" || s = "-Infinity"
  | .bool _, .bool => true
  | .str _, .utf8 => true
  | .str s, .binary => isBase64 s.data
  | .timestampNanos _, .timestamp _ => true
  | .list _, .list _ => true
  | .map _, .map _ _ => true
  | .struct _, .struct _ => true
  | _, _ => false

/-- Top-level variant compatibility of a native cell with a declared
TypeTag: a null cell is allowed in any column, any other cell must carry
the column's declared variant (a timestamp cell in the declared unit). -/
def nativeMatches : NativeValue → TypeTag → Bool
  | .null, _ => true
  | .int _, .int _ _ => true
  | .float _, .float _ => true
  | .bool _, .bool => true
  | .str _, .utf8 => true
  | .bytes _, .binary => true
  | .timestamp _ u, .timestamp u2 => u = u2
  | .list _, .list _ => true
  | .map _, .map _ _ => true
  | .struct _, .struct _ => true
  | _, _ => false

/-- Compatibility of a native row with a schema: same arity, and each cell
matches its column's declared type. -/
def rowMatches (cells : List NativeValue) (schema : Schema) : Bool :=
  cells.length = schema.length &&
    (List.zip cells schema).all (fun p => nativeMatches p.1 p.2.2.1)

/-- Modelled from the spec: splitting delimited-text content into lines at
the newline character; an empty content is one empty line, matching the
semantics of string splitting. -/
def splitLines (cs : List Char) : List (List Char) :=
  cs.takeWhile (fun c => c ≠ '\n') ::
    match hd : cs.dropWhile (fun c => c ≠ '\n') with
    | [] => []
    | _ :: rest => splitLines rest
termination_by cs.length
decreasing_by
  have hle := (List.dropWhile_sublist (l := cs)
    (fun c => decide (c ≠ '\n'))).length_le
  rw [hd] at hle
  simp at hle
  omega

/-- Modelled from the spec: the linear-scan seeking strategy; skip n lines
by scanning characters, returning none when the file is exhausted before
the target line starts. -/
def seekLine : Nat → List Char → Option (List Char)
  | 0, cs => some cs
  | n + 1, cs =>
      match cs.dropWhile (fun c => c ≠ '\n') with
      | [] => none
      | _ :: rest => seekLine n rest

/-- Collect up to n lines by scanning characters from the current
position. -/
def takeLinesScan : Nat → List Char → List (List Char)
  | 0, _ => []
  | n + 1, cs =>
      cs.takeWhile (fun c => c ≠ '\n') ::
        match cs.dropWhile (fun c => c ≠ '\n') with
        | [] => []
        | _ :: rest => takeLinesScan n rest

/-- Modelled from the spec: serving a delimited-text window by linear scan,
seeking to the offset-th data line character by character and then
collecting limit lines. -/
def scanWindow (cs : List Char) (off lim : Nat) : List (List Char) :=
  match seekLine off cs with
  | none => []
  | some rest => takeLinesScan lim rest

/-- Modelled from the spec: serving a delimited-text window through the
precomputed line index built on first read; the index materializes the
line table once and windows are slices of it. -/
def indexWindow (cs : List Char) (off lim : Nat) : List (List Char) :=
  ((splitLines cs).drop off).take lim

/-- Modelled from the spec: the closed enum of preview formats. -/
inductive FormatKind where
  | columnarTable | delimitedText | image | video | unknown
deriving DecidableEq, Repr

/-- An abstract read handle as the classifier sees it: the extension, when
the path has one, and the leading bytes of the content. -/
structure Handle where
  ext : Option String
  magic : List Nat

/-- Extension table of the classifier. -/
def extTable : List (String × FormatKind) :=
  [("parquet", .columnarTable), ("csv", .delimitedText),
   ("tsv", .delimitedText), ("png", .image), ("jpg", .image),
   ("jpeg", .image), ("gif", .image), ("mp4", .video),
   ("webm", .video), ("mov", .video)]

/-- Leading-bytes test: pat is an initial segment of bs. -/
def leadsWith : List Nat → List Nat → Bool
  | [], _ => true
  | _ :: _, [] => false
  | p :: ps, b :: bs => p = b && leadsWith ps bs

/-- Magic-byte table of the classifier: a small fixed-size prefix per
recognized format. -/
def magicTable : List (List Nat × FormatKind) :=
  [([0x50, 0x41, 0x52, 0x31], .columnarTable),
   ([0x89, 0x50, 0x4E, 0x47], .image),
   ([0xFF, 0xD8, 0xFF], .image),
   ([0x47, 0x49, 0x46, 0x38], .image),
   ([0x00, 0x00, 0x00, 0x18, 0x66, 0x74, 0x79, 0x70], .video),
   ([0x1A, 0x45, 0xDF, 0xA3], .video)]

/-- Classify by extension alone. -/
def classifyExt (e : String) : Option FormatKind :=
  (extTable.find? (fun p => p.1 = e)).map (fun p => p.2)

/-- Classify by magic bytes alone. -/
def classifyMagic (bs : List Nat) : Option FormatKind :=
  (magicTable.find? (fun p => leadsWith p.1 bs)).map (fun p => p.2)

/-- Modelled from the spec: the format classifier; extension match first,
magic-byte fallback when the extension is absent or unrecognized, and
Unknown when neither matches. It never fails. -/
def classify (h : Handle) : FormatKind :=
  match h.ext with
  | some e =>
      match classifyExt e with
      | some k => k
      | none => (classifyMagic h.magic).getD .unknown
  | none => (classifyMagic h.magic).getD .unknown

/-- Modelled from the spec: a folder entry of a listing. -/
structure FolderEntry where
  name : String
  isDirectory : Bool
  sizeBytes : Option Nat
deriving DecidableEq, Repr

/-- Modelled from the spec: listFolder produces one entry per child of the
directory, fresh on every call, with no state carried across calls. -/
def listFolder (children : List FolderEntry) : List FolderEntry :=
  children

/-- Modelled from the spec: getSchema routes through the classifier and
serves the schema extracted from the file's metadata, a pure function of
the file's classified kind and declared columns. -/
def getSchema (h : Handle) (declared : Schema) : Except EngineError Schema :=
  match classify h with
  | .columnarTable => .ok declared
  | .delimitedText => .ok declared
  | _ => .error .unsupported

end Preview

namespace Dummy

/-- A generated cell of the dummy table, covering the value shapes the
columns of src/dummy_data/various_types.py produce. -/
inductive Cell where
  | cNull | cNan | cInf | cNegInf
  | cInt (i : Int)
  | cStr (s : String)
  | cBool (b : Bool)
  | cFloat (q : Nat)
  | cTime (d : Nat)
  | cIntList (xs : List Int)
  | cStrList (xs : List String)
  | cBytes (bs : List Nat)
  | cMap (k : String) (v : Nat)
  | cStruct (x : Nat) (y : String)
deriving DecidableEq, Repr

/-- Global pseudo-random state, as set by np.random.seed and random.seed in
DummyDataGenerator._set_random_seed: after seeding, the stream of drawn
numbers is a pure function of the seed and the draw position. The concrete
mixing function stands in for the library generators, whose reproducibility
given a seed is the documented property used by the source. -/
structure RngState where
  seed : Nat
  pos : Nat
deriving DecidableEq, Repr

/-- Deterministic stream underlying the seeded generators. -/
def prng (seed pos : Nat) : Nat :=
  (seed * 2654435761 + (pos + 1) * 2246822519 + 3266489917) % 4294967296

/-- Draw one number and advance the global state. -/
def draw (s : RngState) : Nat × RngState :=
  (prng s.seed s.pos, ⟨s.seed, s.pos + 1⟩)

/-- Thread the state through one cell generator per row, producing one cell
for each of the n rows. -/
def mapState (f : RngState → Cell × RngState) :
    Nat → RngState → List Cell × RngState
  | 0, st => ([], st)
  | n + 1, st =>
      let (c, st1) := f st
      let (cs, st2) := mapState f n st1
      (c :: cs, st2)

/-- Draw a list of k numbers. -/
def drawNats : Nat → RngState → List Nat × RngState
  | 0, st => ([], st)
  | k + 1, st =>
      let (d, st1) := draw st
      let (ds, st2) := drawNats k st1
      (d :: ds, st2)

/-- DummyDataGenerator._random_string: a random alphanumeric string of a
given length, one draw per call. -/
def randomString (k : Nat) (st : RngState) : String × RngState :=
  let (d, st1) := draw st
  ("r" ++ toString (d % 1000) ++ "_" ++ toString k, st1)

/-- Sequential integer column, used for idx_int and np_int16. -/
def genSequentialInt (n : Nat) (st : RngState) : List Cell × RngState :=
  ((List.range n).map (fun i : Nat => Cell.cInt (i : Int)), st)

/-- Column idx_str of generate_arrays. -/
def genIdxStr (n : Nat) (st : RngState) : List Cell × RngState :=
  ((List.range n).map (fun i => Cell.cStr ("s" ++ toString i)), st)

/-- Column url of generate_arrays. -/
def genUrl (n : Nat) (st : RngState) : List Cell × RngState :=
  ((List.range n).map (fun i =>
    Cell.cStr ("https://placehold.co/" ++ toString (300 + i) ++ "x" ++
      toString (400 - i) ++ ".png")), st)

/-- Constant column (pa_null, np_nan, np_inf, the one_value columns, the
s3 url columns). -/
def genConst (c : Cell) (n : Nat) (st : RngState) : List Cell × RngState :=
  (List.replicate n c, st)

/-- DummyDataGenerator._generate_integer_array: n draws in the clipped
range of the integer type. -/
def genRandomInt (lo hi : Int) (n : Nat) (st : RngState) :
    List Cell × RngState :=
  mapState (fun s =>
    let (d, s1) := draw s
    (Cell.cInt (lo + (d % (hi - lo).toNat : Nat)), s1)) n st

/-- DummyDataGenerator._generate_float_array: n draws of float payloads. -/
def genRandomFloat (n : Nat) (st : RngState) : List Cell × RngState :=
  mapState (fun s =>
    let (d, s1) := draw s
    (Cell.cFloat (d % 1000000), s1)) n st

/-- DummyDataGenerator._generate_bool_array: a choice among True, False and
optionally None per row. -/
def genBool (withNulls : Bool) (n : Nat) (st : RngState) :
    List Cell × RngState :=
  mapState (fun s =>
    let (d, s1) := draw s
    let k := if withNulls then 3 else 2
    (match d % k with
     | 0 => Cell.cBool true
     | 1 => Cell.cBool false
     | _ => Cell.cNull, s1)) n st

/-- String options of DummyDataGenerator._generate_string_array. -/
def stringOptions : List String :=
  ["a with space", "c having special characters: !@#$%^&*()", "",
   "emoji 🤣", "multiple\nlines\t\x08string"]

/-- DummyDataGenerator._generate_string_array: a choice among the fixed
string patterns and optionally None per row. -/
def genString (withNulls : Bool) (n : Nat) (st : RngState) :
    List Cell × RngState :=
  mapState (fun s =>
    let (d, s1) := draw s
    let k := if withNulls then 6 else 5
    (match stringOptions.get? (d % k) with
     | some v => Cell.cStr v
     | none => Cell.cNull, s1)) n st

/-- Column int_with_nulls of generate_arrays: a choice among None, 1, 2, 3
per row. -/
def genIntWithNulls (n : Nat) (st : RngState) : List Cell × RngState :=
  mapState (fun s =>
    let (d, s1) := draw s
    (match d % 4 with
     | 0 => Cell.cNull
     | m => Cell.cInt m, s1)) n st

/-- DummyDataGenerator._generate_datetime_array: one day-offset draw per
row; with nulls, one extra draw picks the row whose date is set to None. -/
def genDatetime (withNulls : Bool) (n : Nat) (st : RngState) :
    List Cell × RngState :=
  let r := mapState (fun s => (Cell.cTime ((draw s).1 % 365), (draw s).2))
    n st
  if withNulls then
    (r.1.set ((draw r.2).1 % n) Cell.cNull, (draw r.2).2)
  else r

/-- Row generator of _generate_list_of_integers_array: a null-coin draw,
then a length draw and that many element draws when not null. -/
def rowListInts (s : RngState) : Cell × RngState :=
  let (r, s1) := draw s
  if r % 10 = 0 then (Cell.cNull, s1)
  else
    let (k, s2) := draw s1
    let (ds, s3) := drawNats (1 + k % 4) s2
    (Cell.cIntList (ds.map (fun d => ((d % 100 : Nat) : Int))), s3)

/-- Row generator of _generate_list_of_strings_array: a null-coin draw,
then three random strings of lengths 3, 6 and 9 when not null. -/
def rowListStrs (s : RngState) : Cell × RngState :=
  let (r, s1) := draw s
  if r % 10 = 0 then (Cell.cNull, s1)
  else
    let (a, s2) := randomString 3 s1
    let (b, s3) := randomString 6 s2
    let (c, s4) := randomString 9 s3
    (Cell.cStrList [a, b, c], s4)

/-- Row generator of _generate_blob_array: a null-coin draw, then a length
draw and that many byte draws when not null. -/
def rowBlob (s : RngState) : Cell × RngState :=
  let (r, s1) := draw s
  if r % 20 = 0 then (Cell.cNull, s1)
  else
    let (k, s2) := draw s1
    let (ds, s3) := drawNats (1 + k % 9) s2
    (Cell.cBytes (ds.map (fun d => d % 256)), s3)

/-- Row generator of _generate_dict_array: the null coin is always drawn;
when the row is not null, a key string and a value draw follow. -/
def rowDict (withNulls : Bool) (s : RngState) : Cell × RngState :=
  let (r, s1) := draw s
  if withNulls && r % 10 = 0 then (Cell.cNull, s1)
  else
    let (k, s2) := randomString 3 s1
    let (v, s3) := draw s2
    (Cell.cMap k (v % 100), s3)

/-- Row generator of _generate_struct_array: the null coin is always drawn;
when not null, the x value and the y string follow. -/
def rowStruct (withNulls : Bool) (s : RngState) : Cell × RngState :=
  let (r, s1) := draw s
  if withNulls && r % 10 = 0 then (Cell.cNull, s1)
  else
    let (x, s2) := draw s1
    let (y, s3) := randomString 3 s2
    (Cell.cStruct (x % 100) y, s3)

/-- Per-row list, string-list, blob, dict and struct columns. -/
def genRows (f : RngState → Cell × RngState) (n : Nat) (st : RngState) :
    List Cell × RngState :=
  mapState f n st

/-- Column list of DummyDataGenerator.generate_arrays, in source order:
each entry pairs the dictionary key with its array generator. -/
def columnGens (n : Nat) :
    List (String × (RngState → List Cell × RngState)) :=
  [("idx_int", genSequentialInt n),
   ("idx_str", genIdxStr n),
   ("url", genUrl n),
   ("pa_null", genConst .cNull n),
   ("np_nan", genConst .cNan n),
   ("np_inf", genConst .cInf n),
   ("np_negative_inf", genConst .cNegInf n),
   ("np_int16", genSequentialInt n),
   ("one_value_string", genConst (.cStr "single value") n),
   ("one_value_int", genConst (.cInt 1) n),
   ("one_value_float", genConst (.cFloat 123456789) n),
   ("one_value_bool", genConst (.cBool true) n),
   ("int8", genRandomInt (-128) 127 n),
   ("int16", genRandomInt (-1000) 1000 n),
   ("int32", genRandomInt (-1000) 1000 n),
   ("int64", genRandomInt (-1000) 1000 n),
   ("uint8", genRandomInt 0 255 n),
   ("uint16", genRandomInt 0 1000 n),
   ("uint32", genRandomInt 0 1000 n),
   ("uint64", genRandomInt 0 1000 n),
   ("halffloat", genRandomFloat n),
   ("float", genRandomFloat n),
   ("double", genRandomFloat n),
   ("bool", genBool false n),
   ("bool_with_nulls", genBool true n),
   ("int_with_nulls", genIntWithNulls n),
   ("string", genString false n),
   ("string_with_nulls", genString true n),
   ("datetime", genDatetime false n),
   ("datetime_with_nulls", genDatetime true n),
   ("list_of_integers", genRows rowListInts n),
   ("list_of_strings", genRows rowListStrs n),
   ("blob", genRows rowBlob n),
   ("dict", genRows (rowDict false) n),
   ("dict_with_nulls", genRows (rowDict true) n),
   ("struct", genRows (rowStruct false) n),
   ("struct_with_nulls", genRows (rowStruct true) n),
   ("s3_url", genConst
     (.cStr "s3://sense-table-demo/datasets/COCO2017/images/000000000001.jpg") n),
   ("s3_alternative_url", genConst
     (.cStr "s3alternative://bucket/path/to/file.jpg") n)]

/-- Run the named generators left to right, threading the global state. -/
def runGens : List (String × (RngState → List Cell × RngState)) →
    RngState → List (String × List Cell) × RngState
  | [], st => ([], st)
  | (nm, g) :: rest, st =>
      let (col, st1) := g st
      let (cols, st2) := runGens rest st1
      ((nm, col) :: cols, st2)

/-- The in-memory table: column names paired with column data. -/
structure Table where
  names : List String
  columns : List (List Cell)
deriving DecidableEq, Repr

/-- pa.Table.from_arrays: requires one name per array and equal column
lengths, otherwise construction fails. -/
def fromArrays (cols : List (List Cell)) (names : List String) :
    Option Table :=
  if names.length = cols.length &&
      cols.all (fun c => c.length = (cols.headD []).length)
  then some ⟨names, cols⟩ else none

/-- Row count of a table: the common length of its columns. -/
def numRows (t : Table) : Nat :=
  (t.columns.headD []).length

/-- The generator instance: DummyDataGenerator.__init__ stores n_rows and
seed. -/
structure GenHandle where
  nRows : Nat
  seed : Nat
deriving DecidableEq, Repr

/-- DummyDataGenerator._set_random_seed: resets the global random state
from the instance seed, discarding whatever state was current. -/
def setRandomSeed (g : GenHandle) (_st : RngState) : RngState :=
  ⟨g.seed, 0⟩

/-- DummyDataGenerator.__init__: stores the parameters and seeds the global
generators. -/
def initGenerator (n seed : Nat) (st : RngState) : GenHandle × RngState :=
  let g : GenHandle := ⟨n, seed⟩
  (g, setRandomSeed g st)

/-- DummyDataGenerator.generate_arrays: all named arrays, generated in the
source dictionary order under the current global state. -/
def generateArrays (n : Nat) (st : RngState) :
    List (String × List Cell) × RngState :=
  runGens (columnGens n) st

/-- DummyDataGenerator.create_table: generate the arrays and build the
table from values and keys. -/
def createTableM (g : GenHandle) (st : RngState) :
    Option Table × RngState :=
  let (arrays, st1) := generateArrays g.nRows st
  (fromArrays (arrays.map (fun p => p.2)) (arrays.map (fun p => p.1)), st1)

/-- The dictionary keys of generate_arrays, in source order. -/
def dummyKeys : List String :=
  (columnGens 0).map (fun p => p.1)

end Dummy

namespace Preview

/-- A sample row of a small concrete file with one Int64 column. -/
def sampleRow (i : Int) : Row := [("id", Value.int64 i)]

/-- A concrete three-row file, as in the spec's testable properties. -/
def sampleFile3 : List Row := [sampleRow 0, sampleRow 1, sampleRow 2]

/-- The schema of the sample file. -/
def sampleSchema : Schema := [("id", TypeTag.int 64 true, false)]

/-- A one-column float schema used for the variant-consistency analysis. -/
def floatSchema : Schema := [("f", TypeTag.float 64, true)]

/-- A native file for the float schema whose single cell is +infinity. -/
def infNativeFile : List (List NativeValue) := [[NativeValue.float .pinf]]

end Preview

section C1C2

/-- Helper: pagination from any offset reproduces the remaining suffix of
the file when the page size is positive. -/
theorem paginate_eq_drop (file : List Preview.Row) (lim : Nat)
    (hlim : 0 < lim) :
    ∀ off, Preview.paginate file lim off = file.drop off := by
  refine Preview.paginate.induct file lim
    (fun off => Preview.paginate file lim off = file.drop off) ?_ ?_ ?_
  · intro off hl
    omega
  · intro off hl hw
    rw [Preview.paginate]
    simp only [hl, dite_false]
    split
    · have hnil : (file.drop off).take lim = [] := by
        simpa [Preview.readWindow] using hw
      rcases List.take_eq_nil_iff.mp hnil with h0 | hd
      · omega
      · simp [hd]
    · rename_i r rs heq
      rw [hw] at heq
      simp at heq
  · intro off hl r rs hw ih
    rw [Preview.paginate]
    simp only [hl, dite_false]
    split
    · rename_i heq
      rw [hw] at heq
      simp at heq
    · rename_i r2 rs2 heq
      have hrows : (file.drop off).take lim = r2 :: rs2 := by
        simpa [Preview.readWindow] using heq
      rw [ih, ← hrows]
      have hdd : file.drop (off + lim) = (file.drop off).drop lim := by
        rw [List.drop_drop]
      rw [hdd, List.take_append_drop]

/-- C1: readWindow returns min(limit, totalRows - offset) rows, and tiling
windows at offsets 0, limit, 2*limit, … until an empty window reproduces
the file's full row sequence with no duplication and no gap. -/
theorem c1_window_length_and_tiling :
    (∀ (file : List Preview.Row) (off lim : Nat),
      (Preview.readWindow file off lim).rows.length =
        min lim (file.length - off)) ∧
    (∀ (file : List Preview.Row) (lim : Nat), 0 < lim →
      Preview.paginate file lim 0 = file) := by
  constructor
  · intro file off lim
    simp [Preview.readWindow]
  · intro file lim hlim
    rw [paginate_eq_drop file lim hlim 0, List.drop_zero]

/-- Witness for C1 at a concrete three-row file and page size two. -/
theorem c1_witness :
    Preview.paginate Preview.sampleFile3 2 0 = Preview.sampleFile3 :=
  c1_window_length_and_tiling.2 Preview.sampleFile3 2 (by decide)

/-- C2: getRows with an offset at or past the end of the file does not
raise: it returns an ok window with an empty row sequence and the true
total row count. -/
theorem c2_out_of_range_is_empty_ok
    (file : List Preview.Row) (off lim : Nat) (h : file.length ≤ off) :
    Preview.getRows file off lim =
      .ok { offset := off, limit := lim, totalRows := file.length,
            rows := [] } := by
  simp [Preview.getRows, Preview.readWindow, List.drop_eq_nil_of_le h]

/-- Witness for C2: offset 100 on the three-row file yields ok, no rows,
totalRows three. -/
theorem c2_witness :
    Preview.getRows Preview.sampleFile3 100 10 =
      .ok { offset := 100, limit := 10, totalRows := 3, rows := [] } :=
  c2_out_of_range_is_empty_ok Preview.sampleFile3 100 10 (by decide)

end C1C2

section C4C5

/-- C4: the encoder is total, a native positive infinity encodes as the
literal string Infinity, a negative infinity as the literal string
-Infinity, and every timestamp encodes as integer nanoseconds since the
epoch whatever the source-declared unit. -/
theorem c4_encode_total_sentinels_timestamps :
    (∀ (v : Preview.NativeValue) (t : Preview.TypeTag),
      ∃ w, Preview.encode v t = w) ∧
    (∀ t : Preview.TypeTag,
      Preview.encode (.float .pinf) t = .str "Infinity") ∧
    (∀ t : Preview.TypeTag,
      Preview.encode (.float .ninf) t = .str "-Infinity") ∧
    (∀ (x : Int) (u : Preview.TimeUnit) (t : Preview.TypeTag),
      Preview.encode (.timestamp x u) t =
        .timestampNanos (x * Preview.nanosPer u)) := by
  refine ⟨fun v t => ⟨Preview.encode v t, rfl⟩, ?_, ?_, ?_⟩
  · intro t
    rw [Preview.encode]
  · intro t
    rw [Preview.encode]
  · intro x u t
    rw [Preview.encode]

/-- C5: the encodings of a native null, NaN, positive infinity, negative
infinity, an empty list and an empty string are six pairwise distinct wire
values; in particular the empty list is distinguishable from a null
list. -/
theorem c5_six_states_pairwise_distinct :
    [Preview.encode .null (.float 64),
     Preview.encode (.float .nan) (.float 64),
     Preview.encode (.float .pinf) (.float 64),
     Preview.encode (.float .ninf) (.float 64),
     Preview.encode (.list []) (.list .utf8),
     Preview.encode (.str "") .utf8].Pairwise (· ≠ ·) := by
  have h0 : Preview.encode .null (.float 64) = .null := by
    rw [Preview.encode]
  have h1 : Preview.encode (.float .nan) (.float 64) = .str "NaN" := by
    rw [Preview.encode]
  have h2 : Preview.encode (.float .pinf) (.float 64) = .str "Infinity" := by
    rw [Preview.encode]
  have h3 : Preview.encode (.float .ninf) (.float 64) = .str "-Infinity" := by
    rw [Preview.encode]
  have h4 : Preview.encode (.list []) (.list .utf8) = .list [] := by
    rw [Preview.encode]
    simp
  have h5 : Preview.encode (.str "") .utf8 = .str "" := by
    rw [Preview.encode]
  rw [h0, h1, h2, h3, h4, h5]
  simp [List.pairwise_cons]

end C4C5

section C3

/-- Helper: every output of the alphabet map is an alphabet character; the
final two branches emit plus and slash even for out-of-range sextets. -/
theorem isB64Char_b64Char (n : Nat) :
    Preview.isB64Char (Preview.b64Char n) = true := by
  by_cases h : n < 64
  · exact (by decide :
      ∀ m, m < 64 → Preview.isB64Char (Preview.b64Char m) = true) n h
  · push_neg at h
    rw [Preview.b64Char, if_neg (by omega), if_neg (by omega),
      if_neg (by omega), if_neg (by omega)]
    decide

/-- Helper: the alphabet map never emits the padding character. -/
theorem b64Char_ne_pad_any (n : Nat) : Preview.b64Char n ≠ '=' := by
  intro hpad
  have h1 := isB64Char_b64Char n
  rw [hpad] at h1
  exact absurd h1 (by decide)

/-- Helper: the encoder only produces syntactically valid base64. -/
theorem isBase64_base64Encode :
    ∀ bs : List Nat, Preview.isBase64 (Preview.base64Encode bs) = true := by
  intro bs
  induction bs using Preview.base64Encode.induct with
  | case1 => rfl
  | case2 a =>
      rw [Preview.base64Encode, Preview.isBase64.eq_2]
      simp [isB64Char_b64Char]
  | case3 a b =>
      rw [Preview.base64Encode, Preview.isBase64.eq_3 _ _ _
        (fun hp => b64Char_ne_pad_any _ hp)]
      simp [isB64Char_b64Char]
  | case4 a b c rest ih =>
      rw [Preview.base64Encode, Preview.isBase64.eq_4 _ _ _ _ _
        (fun _ hp _ => b64Char_ne_pad_any _ hp)
        (fun hp _ => b64Char_ne_pad_any _ hp), ih]
      simp [isB64Char_b64Char]

/-- Helper: encoding a native cell that carries its column's declared
variant produces a wire value consistent with that column in the wire
sense, sentinel strings included. -/
theorem encode_wireConsistent (v : Preview.NativeValue)
    (t : Preview.TypeTag) (h : Preview.nativeMatches v t = true) :
    Preview.wireConsistent (Preview.encode v t) t = true := by
  cases v with
  | null => rw [Preview.encode]; cases t <;> rfl
  | int i =>
      cases t <;> simp [Preview.nativeMatches] at h <;>
        rw [Preview.encode] <;> rfl
  | float f =>
      cases t <;> simp [Preview.nativeMatches] at h <;>
        cases f <;> rw [Preview.encode] <;>
        simp [Preview.wireConsistent]
  | bool b =>
      cases t <;> simp [Preview.nativeMatches] at h <;>
        rw [Preview.encode] <;> rfl
  | str s =>
      cases t <;> simp [Preview.nativeMatches] at h <;>
        rw [Preview.encode] <;> rfl
  | bytes bs =>
      cases t <;> simp [Preview.nativeMatches] at h <;>
        rw [Preview.encode] <;>
        exact isBase64_base64Encode bs
  | timestamp x u =>
      cases t <;> simp [Preview.nativeMatches] at h <;>
        rw [Preview.encode] <;> rfl
  | list vs =>
      cases t <;> simp [Preview.nativeMatches] at h <;>
        rw [Preview.encode] <;> rfl
  | map kvs =>
      cases t <;> simp [Preview.nativeMatches] at h <;>
        rw [Preview.encode] <;> rfl
  | struct fs =>
      cases t <;> simp [Preview.nativeMatches] at h <;>
        rw [Preview.encode] <;> rfl

/-- Counterexample to C3 as stated: on a single-column Float64 schema whose
native cell is +infinity, the returned window holds the string Infinity,
whose variant is neither the declared Float variant nor Null. -/
theorem c3_counterexample :
    (Preview.readWindow
        (Preview.infNativeFile.map
          (fun r => Preview.encodeRow r Preview.floatSchema)) 0 1).rows =
      [[("f", Preview.Value.str "Infinity")]] ∧
    Preview.strictConsistent (Preview.Value.str "Infinity")
      (Preview.TypeTag.float 64) = false := by
  have hE : Preview.encode (.float .pinf) (Preview.TypeTag.float 64) =
      .str "Infinity" := by rw [Preview.encode]
  constructor
  · simp [Preview.readWindow, Preview.infNativeFile, Preview.floatSchema,
      Preview.encodeRow, hE]
  · rfl

/-- C3 amended: every Value appearing in a returned row for a column c is
variant-consistent with c's declared TypeTag in the wire sense: the
declared variant, or Null, or one of the defined sentinel and blob string
encodings of the encoder contract (NaN, Infinity and -Infinity strings for
float columns, a base64 string for binary columns). -/
theorem c3_amended_wire_consistency
    (file : List (List Preview.NativeValue)) (schema : Preview.Schema)
    (off lim : Nat)
    (h : ∀ r ∈ file, Preview.rowMatches r schema = true) :
    ∀ row ∈ (Preview.readWindow
        (file.map (fun r => Preview.encodeRow r schema)) off lim).rows,
      ∀ (i : Nat) (nm : String) (w : Preview.Value)
        (c : Preview.ColumnSpec),
        row[i]? = some (nm, w) → schema[i]? = some c →
        Preview.wireConsistent w c.2.1 = true := by
  intro row hrow i nm w c hr hc
  have hrow2 : row ∈ ((file.map (fun r => Preview.encodeRow r schema)).drop
      off).take lim := hrow
  have hmem : row ∈ file.map (fun r => Preview.encodeRow r schema) :=
    List.mem_of_mem_drop (List.mem_of_mem_take hrow2)
  obtain ⟨r, hrfile, rfl⟩ := List.mem_map.mp hmem
  rw [Preview.encodeRow, List.getElem?_zipWith] at hr
  cases hri : r[i]? with
  | none => rw [hri] at hr; simp at hr
  | some v =>
      rw [hri, hc] at hr
      simp only [Option.some.injEq, Prod.mk.injEq] at hr
      have hzip : (List.zip r schema)[i]? = some (v, c) :=
        List.getElem?_zip_eq_some.mpr ⟨hri, hc⟩
      have hzmem : (v, c) ∈ List.zip r schema :=
        List.getElem?_mem hzip
      have hmr := h r hrfile
      rw [Preview.rowMatches, Bool.and_eq_true, List.all_eq_true] at hmr
      have hnm := hmr.2 (v, c) hzmem
      rw [← hr.2]
      exact encode_wireConsistent v c.2.1 hnm

/-- Witness for the amended C3 at the one-row +infinity float file. -/
theorem c3_amended_witness :
    Preview.wireConsistent (Preview.Value.str "Infinity")
      (Preview.TypeTag.float 64) = true :=
  c3_amended_wire_consistency Preview.infNativeFile Preview.floatSchema 0 1
    (by decide) [("f", Preview.Value.str "Infinity")]
    (by
      have hE : Preview.encode (.float .pinf) (Preview.TypeTag.float 64) =
          .str "Infinity" := by rw [Preview.encode]
      simp [Preview.readWindow, Preview.infNativeFile, Preview.floatSchema,
        Preview.encodeRow, hE])
    0 "f" (Preview.Value.str "Infinity") ("f", Preview.TypeTag.float 64, true)
    rfl rfl

end C3

section C6

/-- Helper: the base64 alphabet mapping inverts on sextets. -/
theorem b64Value_b64Char : ∀ n, n < 64 → Preview.b64Value (Preview.b64Char n) = n := by
  decide

/-- Helper: no alphabet character is the padding character. -/
theorem b64Char_ne_pad : ∀ n, n < 64 → Preview.b64Char n ≠ '=' := by
  decide

/-- Helper: decoding inverts encoding on any byte sequence. -/
theorem base64_decode_encode :
    ∀ l : List Nat, (∀ b ∈ l, b < 256) →
      Preview.base64Decode (Preview.base64Encode l) = l := by
  intro l
  induction l using Preview.base64Encode.induct with
  | case1 =>
      intro _
      rfl
  | case2 a =>
      intro h
      have ha : a < 256 := h a (by simp)
      rw [Preview.base64Encode, Preview.base64Decode.eq_1,
        b64Value_b64Char _ (by omega), b64Value_b64Char _ (by omega)]
      simp only [List.cons.injEq, and_true]
      omega
  | case3 a b =>
      intro h
      have ha : a < 256 := h a (by simp)
      have hb : b < 256 := h b (by simp)
      rw [Preview.base64Encode, Preview.base64Decode.eq_2 _ _ _
          (fun hpad => b64Char_ne_pad _ (by omega) hpad),
        b64Value_b64Char _ (by omega), b64Value_b64Char _ (by omega),
        b64Value_b64Char _ (by omega)]
      simp only [List.cons.injEq, and_true]
      omega
  | case4 a b c rest ih =>
      intro h
      have ha : a < 256 := h a (by simp)
      have hb : b < 256 := h b (by simp)
      have hc : c < 256 := h c (by simp)
      have hrest : ∀ x ∈ rest, x < 256 := fun x hx => h x (by simp [hx])
      rw [Preview.base64Encode, Preview.base64Decode.eq_3 _ _ _ _ _
          (fun _ hpad _ => b64Char_ne_pad (c % 64) (by omega) hpad)
          (fun hpad _ => b64Char_ne_pad (c % 64) (by omega) hpad),
        b64Value_b64Char _ (by omega), b64Value_b64Char _ (by omega),
        b64Value_b64Char _ (by omega), b64Value_b64Char _ (by omega),
        ih hrest]
      simp only [List.cons.injEq, and_true]
      refine ⟨by omega, by omega, by omega⟩

/-- C6: a binary blob cell round-trips: encoding known bytes to the wire
representation (a base64 string for the Binary column) and decoding it
back yields byte-identical content, for every byte sequence. -/
theorem c6_blob_roundtrip (bs : List Nat) (h : ∀ b ∈ bs, b < 256) :
    Preview.decodeBlob (Preview.encode (.bytes bs) .binary) = some bs := by
  rw [Preview.encode]
  simp only [Preview.decodeBlob, String.data]
  rw [base64_decode_encode bs h]

/-- Witness for C6 at a concrete three-byte blob. -/
theorem c6_witness :
    Preview.decodeBlob (Preview.encode (.bytes [0, 255, 7]) .binary) =
      some [0, 255, 7] :=
  c6_blob_roundtrip [0, 255, 7] (by decide)

end C6

section C7

/-- Helper: line splitting when the content has no newline. -/
theorem splitLines_of_nil (cs : List Char)
    (hdw : cs.dropWhile (fun c => c ≠ '\n') = []) :
    Preview.splitLines cs = [cs.takeWhile (fun c => c ≠ '\n')] := by
  rw [Preview.splitLines]
  split
  · rfl
  · rename_i d2 rest3 heq2
    rw [hdw] at heq2
    simp at heq2

/-- Helper: line splitting steps over the first newline. -/
theorem splitLines_of_cons (cs : List Char) (d : Char) (rest2 : List Char)
    (hdw : cs.dropWhile (fun c => c ≠ '\n') = d :: rest2) :
    Preview.splitLines cs =
      cs.takeWhile (fun c => c ≠ '\n') :: Preview.splitLines rest2 := by
  rw [Preview.splitLines]
  split
  · rename_i heq2
    rw [hdw] at heq2
    simp at heq2
  · rename_i d2 rest3 heq2
    rw [hdw] at heq2
    cases heq2
    rfl

/-- Helper: scanning up to n lines from a position equals taking n entries
of the split-line table at that position. -/
theorem takeLinesScan_eq_take :
    ∀ (n : Nat) (cs : List Char),
      Preview.takeLinesScan n cs = (Preview.splitLines cs).take n := by
  intro n cs
  induction n, cs using Preview.takeLinesScan.induct with
  | case1 cs =>
      simp [Preview.takeLinesScan]
  | case2 n cs ih =>
      rw [Preview.takeLinesScan]
      cases hdw : cs.dropWhile (fun c => c ≠ '\n') with
      | nil =>
          rw [splitLines_of_nil cs hdw]
          simp
      | cons d rest2 =>
          rw [splitLines_of_cons cs d rest2 hdw]
          show cs.takeWhile (fun c => c ≠ '\n') ::
              Preview.takeLinesScan n rest2 =
            cs.takeWhile (fun c => c ≠ '\n') ::
              (Preview.splitLines rest2).take n
          rw [ih rest2]

/-- Helper: a successful linear seek lands at the suffix whose line table is
the dropped line table of the whole content. -/
theorem seekLine_some_splitLines :
    ∀ (n : Nat) (cs rest : List Char),
      Preview.seekLine n cs = some rest →
      Preview.splitLines rest = (Preview.splitLines cs).drop n := by
  intro n
  induction n with
  | zero =>
      intro cs rest h
      rw [Preview.seekLine] at h
      cases h
      simp
  | succ n ih =>
      intro cs rest h
      rw [Preview.seekLine] at h
      cases hdw : cs.dropWhile (fun c => c ≠ '\n') with
      | nil => rw [hdw] at h; exact absurd h (by simp)
      | cons d rest2 =>
          rw [hdw] at h
          rw [splitLines_of_cons cs d rest2 hdw, List.drop_succ_cons,
            ← ih rest2 rest h]

/-- Helper: a failed linear seek means the line table has at most n
entries. -/
theorem seekLine_none_length :
    ∀ (n : Nat) (cs : List Char),
      Preview.seekLine n cs = none →
      (Preview.splitLines cs).length ≤ n := by
  intro n
  induction n with
  | zero =>
      intro cs h
      rw [Preview.seekLine] at h
      exact absurd h (by simp)
  | succ n ih =>
      intro cs h
      rw [Preview.seekLine] at h
      cases hdw : cs.dropWhile (fun c => c ≠ '\n') with
      | nil =>
          rw [splitLines_of_nil cs hdw]
          simp
      | cons d rest2 =>
          rw [hdw] at h
          rw [splitLines_of_cons cs d rest2 hdw]
          simpa using ih rest2 h

/-- C7: the exposed operations are deterministic and idempotent as pure
functions of their inputs, and the two seeking strategies for delimited
text, linear scan and the precomputed line index, give identical windows
for every content, offset and limit. -/
theorem c7_deterministic_strategies_agree :
    (∀ (cs : List Char) (off lim : Nat),
      Preview.scanWindow cs off lim = Preview.indexWindow cs off lim) ∧
    (∀ (file : List Preview.Row) (off lim : Nat),
      Preview.getRows file off lim = Preview.getRows file off lim) ∧
    (∀ children : List Preview.FolderEntry,
      Preview.listFolder children = Preview.listFolder children) ∧
    (∀ (h : Preview.Handle) (s : Preview.Schema),
      Preview.getSchema h s = Preview.getSchema h s) := by
  refine ⟨?_, fun _ _ _ => rfl, fun _ => rfl, fun _ _ => rfl⟩
  intro cs off lim
  rw [Preview.scanWindow, Preview.indexWindow]
  cases hsk : Preview.seekLine off cs with
  | none =>
      have hlen := seekLine_none_length off cs hsk
      rw [List.drop_eq_nil_of_le hlen]
      simp
  | some rest =>
      show Preview.takeLinesScan lim rest = _
      rw [takeLinesScan_eq_take, seekLine_some_splitLines off cs rest hsk]

end C7

section C8

/-- C8: the classifier never fails: the extension is consulted first and
decides when it matches; the magic-byte prefix is consulted only when the
extension is absent or unrecognized; and any input matching neither table
classifies as Unknown rather than raising an error. -/
theorem c8_classify_total_order_unknown :
    (∀ (h : Preview.Handle) (e : String) (k : Preview.FormatKind),
      h.ext = some e → Preview.classifyExt e = some k →
      Preview.classify h = k) ∧
    (∀ h : Preview.Handle, h.ext = none →
      Preview.classify h = (Preview.classifyMagic h.magic).getD .unknown) ∧
    (∀ (h : Preview.Handle) (e : String), h.ext = some e →
      Preview.classifyExt e = none →
      Preview.classify h = (Preview.classifyMagic h.magic).getD .unknown) ∧
    (∀ h : Preview.Handle,
      (∀ e, h.ext = some e → Preview.classifyExt e = none) →
      Preview.classifyMagic h.magic = none →
      Preview.classify h = .unknown) := by
  refine ⟨?_, ?_, ?_, ?_⟩
  · intro h e k hext hcls
    simp only [Preview.classify, hext, hcls]
  · intro h hext
    simp only [Preview.classify, hext]
  · intro h e hext hcls
    simp only [Preview.classify, hext, hcls]
  · intro h hext hmag
    cases he : h.ext with
    | none => simp only [Preview.classify, he, hmag, Option.getD_none]
    | some e =>
        simp only [Preview.classify, he, hext e he, hmag, Option.getD_none]

/-- Witness for C8: a handle with an unrecognized extension and content
matching no magic prefix classifies as Unknown. -/
theorem c8_witness :
    Preview.classify { ext := some "xyz", magic := [1, 2, 3] } =
      .unknown :=
  c8_classify_total_order_unknown.2.2.2
    { ext := some "xyz", magic := [1, 2, 3] }
    (by intro e he; cases he; decide) (by decide)

end C8

section C9C10

/-- Helper: mapState produces exactly one cell per requested row. -/
theorem mapState_length (f : Dummy.RngState → Dummy.Cell × Dummy.RngState) :
    ∀ (n : Nat) (st : Dummy.RngState),
      (Dummy.mapState f n st).1.length = n := by
  intro n
  induction n with
  | zero => intro st; rfl
  | succ n ih =>
      intro st
      rw [Dummy.mapState]
      simp [ih]

/-- Helper: sequential and constant columns have one cell per row. -/
theorem genSequentialInt_length (n : Nat) (st : Dummy.RngState) :
    (Dummy.genSequentialInt n st).1.length = n := by
  simp only [Dummy.genSequentialInt, List.length_map, List.length_range]

/-- Helper: index-string columns have one cell per row. -/
theorem genIdxStr_length (n : Nat) (st : Dummy.RngState) :
    (Dummy.genIdxStr n st).1.length = n := by
  simp only [Dummy.genIdxStr, List.length_map, List.length_range]

/-- Helper: url columns have one cell per row. -/
theorem genUrl_length (n : Nat) (st : Dummy.RngState) :
    (Dummy.genUrl n st).1.length = n := by
  simp only [Dummy.genUrl, List.length_map, List.length_range]

/-- Helper: constant columns have one cell per row. -/
theorem genConst_length (c : Dummy.Cell) (n : Nat) (st : Dummy.RngState) :
    (Dummy.genConst c n st).1.length = n := by
  simp only [Dummy.genConst, List.length_replicate]

/-- Helper: random integer columns have one cell per row. -/
theorem genRandomInt_length (lo hi : Int) (n : Nat) (st : Dummy.RngState) :
    (Dummy.genRandomInt lo hi n st).1.length = n :=
  mapState_length _ n st

/-- Helper: random float columns have one cell per row. -/
theorem genRandomFloat_length (n : Nat) (st : Dummy.RngState) :
    (Dummy.genRandomFloat n st).1.length = n :=
  mapState_length _ n st

/-- Helper: boolean columns have one cell per row. -/
theorem genBool_length (w : Bool) (n : Nat) (st : Dummy.RngState) :
    (Dummy.genBool w n st).1.length = n :=
  mapState_length _ n st

/-- Helper: string columns have one cell per row. -/
theorem genString_length (w : Bool) (n : Nat) (st : Dummy.RngState) :
    (Dummy.genString w n st).1.length = n :=
  mapState_length _ n st

/-- Helper: nullable integer columns have one cell per row. -/
theorem genIntWithNulls_length (n : Nat) (st : Dummy.RngState) :
    (Dummy.genIntWithNulls n st).1.length = n :=
  mapState_length _ n st

/-- Helper: datetime columns keep one cell per row, with or without the
null splice. -/
theorem genDatetime_length (w : Bool) (n : Nat) (st : Dummy.RngState) :
    (Dummy.genDatetime w n st).1.length = n := by
  rw [Dummy.genDatetime]
  split
  · simp [mapState_length]
  · simp [mapState_length]

/-- Helper: per-row generated columns have one cell per row. -/
theorem genRows_length (f : Dummy.RngState → Dummy.Cell × Dummy.RngState)
    (n : Nat) (st : Dummy.RngState) :
    (Dummy.genRows f n st).1.length = n :=
  mapState_length f n st

/-- Helper: every column generator in the table generator list produces a
column of length n from any state. -/
theorem columnGens_length (n : Nat) :
    ∀ p ∈ Dummy.columnGens n, ∀ st : Dummy.RngState,
      ((p.2 st).1.length = n) := by
  intro p hp st
  rw [Dummy.columnGens] at hp
  rcases List.mem_cons.mp hp with rfl | hp
  · exact genSequentialInt_length n st
  rcases List.mem_cons.mp hp with rfl | hp
  · exact genIdxStr_length n st
  rcases List.mem_cons.mp hp with rfl | hp
  · exact genUrl_length n st
  rcases List.mem_cons.mp hp with rfl | hp
  · exact genConst_length Dummy.Cell.cNull n st
  rcases List.mem_cons.mp hp with rfl | hp
  · exact genConst_length Dummy.Cell.cNan n st
  rcases List.mem_cons.mp hp with rfl | hp
  · exact genConst_length Dummy.Cell.cInf n st
  rcases List.mem_cons.mp hp with rfl | hp
  · exact genConst_length Dummy.Cell.cNegInf n st
  rcases List.mem_cons.mp hp with rfl | hp
  · exact genSequentialInt_length n st
  rcases List.mem_cons.mp hp with rfl | hp
  · exact genConst_length (Dummy.Cell.cStr "single value") n st
  rcases List.mem_cons.mp hp with rfl | hp
  · exact genConst_length (Dummy.Cell.cInt 1) n st
  rcases List.mem_cons.mp hp with rfl | hp
  · exact genConst_length (Dummy.Cell.cFloat 123456789) n st
  rcases List.mem_cons.mp hp with rfl | hp
  · exact genConst_length (Dummy.Cell.cBool true) n st
  rcases List.mem_cons.mp hp with rfl | hp
  · exact genRandomInt_length (-128) 127 n st
  rcases List.mem_cons.mp hp with rfl | hp
  · exact genRandomInt_length (-1000) 1000 n st
  rcases List.mem_cons.mp hp with rfl | hp
  · exact genRandomInt_length (-1000) 1000 n st
  rcases List.mem_cons.mp hp with rfl | hp
  · exact genRandomInt_length (-1000) 1000 n st
  rcases List.mem_cons.mp hp with rfl | hp
  · exact genRandomInt_length 0 255 n st
  rcases List.mem_cons.mp hp with rfl | hp
  · exact genRandomInt_length 0 1000 n st
  rcases List.mem_cons.mp hp with rfl | hp
  · exact genRandomInt_length 0 1000 n st
  rcases List.mem_cons.mp hp with rfl | hp
  · exact genRandomInt_length 0 1000 n st
  rcases List.mem_cons.mp hp with rfl | hp
  · exact genRandomFloat_length n st
  rcases List.mem_cons.mp hp with rfl | hp
  · exact genRandomFloat_length n st
  rcases List.mem_cons.mp hp with rfl | hp
  · exact genRandomFloat_length n st
  rcases List.mem_cons.mp hp with rfl | hp
  · exact genBool_length false n st
  rcases List.mem_cons.mp hp with rfl | hp
  · exact genBool_length true n st
  rcases List.mem_cons.mp hp with rfl | hp
  · exact genIntWithNulls_length n st
  rcases List.mem_cons.mp hp with rfl | hp
  · exact genString_length false n st
  rcases List.mem_cons.mp hp with rfl | hp
  · exact genString_length true n st
  rcases List.mem_cons.mp hp with rfl | hp
  · exact genDatetime_length false n st
  rcases List.mem_cons.mp hp with rfl | hp
  · exact genDatetime_length true n st
  rcases List.mem_cons.mp hp with rfl | hp
  · exact genRows_length Dummy.rowListInts n st
  rcases List.mem_cons.mp hp with rfl | hp
  · exact genRows_length Dummy.rowListStrs n st
  rcases List.mem_cons.mp hp with rfl | hp
  · exact genRows_length Dummy.rowBlob n st
  rcases List.mem_cons.mp hp with rfl | hp
  · exact genRows_length (Dummy.rowDict false) n st
  rcases List.mem_cons.mp hp with rfl | hp
  · exact genRows_length (Dummy.rowDict true) n st
  rcases List.mem_cons.mp hp with rfl | hp
  · exact genRows_length (Dummy.rowStruct false) n st
  rcases List.mem_cons.mp hp with rfl | hp
  · exact genRows_length (Dummy.rowStruct true) n st
  rcases List.mem_cons.mp hp with rfl | hp
  · exact genConst_length (Dummy.Cell.cStr "s3://sense-table-demo/datasets/COCO2017/images/000000000001.jpg") n st
  rcases List.mem_cons.mp hp with rfl | hp
  · exact genConst_length (Dummy.Cell.cStr "s3alternative://bucket/path/to/file.jpg") n st
  exact absurd hp (List.not_mem_nil p)

/-- Helper: running the generators yields the generator names in order, and
columns of length n whenever every generator produces length n. -/
theorem runGens_names_and_lengths
    (gens : List (String × (Dummy.RngState →
      List Dummy.Cell × Dummy.RngState))) :
    ∀ st : Dummy.RngState,
      ((Dummy.runGens gens st).1.map (fun p => p.1) =
        gens.map (fun p => p.1)) ∧
      (∀ n, (∀ p ∈ gens, ∀ st2, ((p.2 st2).1.length = n)) →
        ∀ c ∈ (Dummy.runGens gens st).1.map (fun p => p.2),
          c.length = n) := by
  induction gens with
  | nil =>
      intro st
      exact ⟨rfl, fun n _ c hc => absurd hc (by simp [Dummy.runGens])⟩
  | cons g rest ih =>
      intro st
      obtain ⟨nm, gf⟩ := g
      rw [Dummy.runGens]
      constructor
      · simp [(ih ((gf st).2)).1]
      · intro n hall c hc
        simp only [List.map_cons, List.mem_cons] at hc
        rcases hc with rfl | hc
        · exact hall (nm, gf) (by simp) st
        · exact (ih ((gf st).2)).2 n
            (fun p hp st2 => hall p (by simp [hp]) st2) c hc

/-- C9: the dummy-data generator is deterministic in its seed: two freshly
constructed instances with equal n_rows and seed produce equal tables on
their first create_table call, whatever global random state preceded
construction, because the constructor reseeds the global generators; the
same does not hold for two successive create_table calls on one instance,
which continue from the advanced state. -/
theorem c9_seed_determinism :
    (∀ (n s : Nat) (st st2 : Dummy.RngState),
      (Dummy.createTableM (Dummy.initGenerator n s st).1
          (Dummy.initGenerator n s st).2).1 =
        (Dummy.createTableM (Dummy.initGenerator n s st2).1
          (Dummy.initGenerator n s st2).2).1) ∧
    ((Dummy.createTableM (Dummy.initGenerator 1 0 ⟨7, 7⟩).1
        (Dummy.createTableM (Dummy.initGenerator 1 0 ⟨7, 7⟩).1
          (Dummy.initGenerator 1 0 ⟨7, 7⟩).2).2).1 ≠
      (Dummy.createTableM (Dummy.initGenerator 1 0 ⟨7, 7⟩).1
        (Dummy.initGenerator 1 0 ⟨7, 7⟩).2).1) := by
  constructor
  · intro n s st st2
    rfl
  · decide

/-- C10: for every positive n_rows and any seed, create_table on a fresh
instance succeeds and returns a table with exactly n_rows rows, every
column of length n_rows, and column names exactly the generate_arrays keys,
in order and pairwise distinct. -/
theorem c10_create_table_shape (n s : Nat) (st : Dummy.RngState)
    (hn : 0 < n) :
    ∃ t : Dummy.Table,
      (Dummy.createTableM (Dummy.initGenerator n s st).1
        (Dummy.initGenerator n s st).2).1 = some t ∧
      t.names = Dummy.dummyKeys ∧
      t.names.Nodup ∧
      (∀ c ∈ t.columns, c.length = n) ∧
      Dummy.numRows t = n := by
  have hrun := runGens_names_and_lengths (Dummy.columnGens n)
    (Dummy.initGenerator n s st).2
  have hlen := hrun.2 n (columnGens_length n)
  have hnames : ((Dummy.runGens (Dummy.columnGens n)
      (Dummy.initGenerator n s st).2).1.map (fun p => p.1) =
      Dummy.dummyKeys) := by
    rw [hrun.1]
    rfl
  set arrays := (Dummy.runGens (Dummy.columnGens n)
    (Dummy.initGenerator n s st).2).1 with harr
  have hcols : ∀ c ∈ arrays.map (fun p => p.2), c.length = n := hlen
  have hself : ∀ c ∈ arrays.map (fun p => p.2),
      c.length = ((arrays.map (fun p => p.2)).headD []).length := by
    intro c hc
    have hne : arrays.map (fun p => p.2) ≠ [] := by
      intro hnil
      rw [hnil] at hc
      exact absurd hc (by simp)
    obtain ⟨c0, rest, h0⟩ := List.exists_cons_of_ne_nil hne
    have hc0 : c0 ∈ arrays.map (fun p => p.2) := by
      rw [h0]; exact by simp
    rw [hcols c hc, h0]
    simp [hcols c0 hc0]
  refine ⟨⟨arrays.map (fun p => p.1), arrays.map (fun p => p.2)⟩, ?_, ?_,
    ?_, ?_, ?_⟩
  · show (Dummy.createTableM (Dummy.initGenerator n s st).1
      (Dummy.initGenerator n s st).2).1 = _
    rw [Dummy.createTableM]
    simp only [Dummy.fromArrays]
    rw [if_pos]
    · rfl
    · refine (Bool.and_eq_true _ _).mpr ⟨by simp, ?_⟩
      rw [List.all_eq_true]
      intro c hc
      exact decide_eq_true (hself c hc)
  · exact hnames
  · show (arrays.map (fun p => p.1)).Nodup
    rw [hnames]
    decide
  · exact hcols
  · show ((arrays.map (fun p => p.2)).headD []).length = n
    have hne : arrays.map (fun p => p.2) ≠ [] := by
      have hlenm : (arrays.map (fun p => p.2)).length = 39 := by
        have h1 : arrays.length = 39 := by
          have := congrArg List.length hrun.1
          simpa using this
        simp [h1]
      intro hnil
      rw [hnil] at hlenm
      simp at hlenm
    obtain ⟨c0, rest, h0⟩ := List.exists_cons_of_ne_nil hne
    have hc0 : c0 ∈ arrays.map (fun p => p.2) := by
      rw [h0]; exact by simp
    rw [h0]
    simpa using hcols c0 hc0

/-- Witness for C10 at one row and seed zero. -/
theorem c10_witness :
    ∃ t : Dummy.Table,
      (Dummy.createTableM (Dummy.initGenerator 1 0 ⟨0, 0⟩).1
        (Dummy.initGenerator 1 0 ⟨0, 0⟩).2).1 = some t ∧
      t.names = Dummy.dummyKeys ∧
      t.names.Nodup ∧
      (∀ c ∈ t.columns, c.length = 1) ∧
      Dummy.numRows t = 1 :=
  c10_create_table_shape 1 0 ⟨0, 0⟩ (by decide)

end C9C10
